import Mathlib

/-!
Verification of the reconciliation engine, error-log parser, link classifier
and orchestrator of the SPOTMP3 repository, as a shallow embedding in Lean 4.

Python strings are modelled as `List Char` (wrapped into `String` at the
interfaces), files as records of the fields the code reads, and the file
system state touched by the SoundCloud cleanup pass as an explicit state
record threaded through the function.
-/

set_option maxRecDepth 4000

/- ---------------------------------------------------------------------
   Generic character and string machinery mirroring the Python primitives
   used by the source: str.strip, str.startswith, the in operator,
   str.split(sep), str.split(sep, 1).
   --------------------------------------------------------------------- -/

-- Python str.strip() whitespace class, ASCII part: space, \t, \n, \r, \v, \f.
def isPySpaceChar (c : Char) : Bool :=
  c == ' ' || c == '\t' || c == '\n' || c == '\r' ||
  c == Char.ofNat 11 || c == Char.ofNat 12

-- Python str.strip(): drop leading and trailing whitespace.
def pyStripL (l : List Char) : List Char :=
  ((l.dropWhile isPySpaceChar).reverse.dropWhile isPySpaceChar).reverse

-- Python s.startswith(p): the literal p occurs at the head of l.
def litAt : List Char → List Char → Bool
  | [], _ => true
  | _ :: _, [] => false
  | p :: ps, c :: cs => p == c && litAt ps cs

-- First occurrence of sep in l: some (before, after) used by split(sep, 1).
def splitFirst (sep : List Char) : List Char → Option (List Char × List Char)
  | [] => if litAt sep [] then some ([], ([] : List Char).drop sep.length) else none
  | c :: cs =>
    if litAt sep (c :: cs) then some ([], (c :: cs).drop sep.length)
    else (splitFirst sep cs).map (fun p => (c :: p.1, p.2))

-- Python sep in line.
def containsSub (l sep : List Char) : Bool := (splitFirst sep l).isSome

theorem splitFirst_length_lt (sep : List Char) (hsep : sep ≠ []) :
    ∀ l a b, splitFirst sep l = some (a, b) → b.length < l.length := by
  intro l
  induction l with
  | nil =>
    intro a b h
    simp only [splitFirst] at h
    cases hs : litAt sep [] with
    | true => cases sep with
      | nil => exact absurd rfl hsep
      | cons x xs => simp [litAt] at hs
    | false => simp [hs] at h
  | cons c cs ih =>
    intro a b h
    simp only [splitFirst] at h
    by_cases hs : litAt sep (c :: cs) = true
    · rw [if_pos hs] at h
      cases h
      cases sep with
      | nil => exact absurd rfl hsep
      | cons x xs =>
        simp only [List.length_drop, List.length_cons]
        omega
    · rw [if_neg hs] at h
      cases hsf : splitFirst sep cs with
      | none => rw [hsf] at h; exact absurd h (by simp [Option.map_none'])
      | some p =>
        rw [hsf] at h
        simp only [Option.map_some'] at h
        cases h
        have := ih p.1 p.2 hsf
        simp only [List.length_cons]
        omega

-- Python s.split(sep), via structural recursion on a fuel bound so that the
-- function reduces inside the kernel; any fuel above the length gives the
-- same value (splitAllF_irrel below).
def splitAllF (sep : List Char) : Nat → List Char → List (List Char)
  | 0, l => [l]
  | fuel + 1, l =>
    match splitFirst sep l with
    | none => [l]
    | some (a, b) => a :: splitAllF sep fuel b

def splitAll (sep : List Char) (l : List Char) : List (List Char) :=
  if sep = [] then [l] else splitAllF sep (l.length + 1) l

theorem splitAllF_irrel (sep : List Char) (hsep : sep ≠ []) :
    ∀ (f1 : Nat), ∀ (f2 : Nat) (l : List Char), l.length < f1 → l.length < f2 →
      splitAllF sep f1 l = splitAllF sep f2 l := by
  intro f1
  induction f1 with
  | zero => intro f2 l h1 _; exact absurd h1 (Nat.not_lt_zero l.length)
  | succ f1 ih =>
    intro f2 l h1 h2
    cases f2 with
    | zero => exact absurd h2 (Nat.not_lt_zero l.length)
    | succ f2 =>
      show (match splitFirst sep l with
            | none => [l]
            | some (a, b) => a :: splitAllF sep f1 b) =
           (match splitFirst sep l with
            | none => [l]
            | some (a, b) => a :: splitAllF sep f2 b)
      cases hsf : splitFirst sep l with
      | none => rfl
      | some p =>
        obtain ⟨a, b⟩ := p
        have hlt := splitFirst_length_lt sep hsep l a b hsf
        show a :: splitAllF sep f1 b = a :: splitAllF sep f2 b
        rw [ih f2 b (by omega) (by omega)]

theorem splitAll_of_none (sep : List Char) (l : List Char) (hsep : sep ≠ [])
    (h : splitFirst sep l = none) : splitAll sep l = [l] := by
  unfold splitAll
  rw [if_neg hsep]
  show (match splitFirst sep l with
        | none => [l]
        | some (a, b) => a :: splitAllF sep l.length b) = [l]
  rw [h]

theorem splitAll_of_some (sep : List Char) (l a b : List Char) (hsep : sep ≠ [])
    (h : splitFirst sep l = some (a, b)) : splitAll sep l = a :: splitAll sep b := by
  unfold splitAll
  rw [if_neg hsep, if_neg hsep]
  show (match splitFirst sep l with
        | none => [l]
        | some (a, b) => a :: splitAllF sep l.length b) = _
  rw [h]
  have hlt := splitFirst_length_lt sep hsep l a b h
  show a :: splitAllF sep l.length b = a :: splitAllF sep (b.length + 1) b
  rw [splitAllF_irrel sep hsep l.length (b.length + 1) b (by omega) (by omega)]

/- ---------------------------------------------------------------------
   Data model from src/models.py.  Playlist.songs is omitted: every Song
   and Playlist built by the reconciliation and error-parsing paths leaves
   it at its default empty value.
   --------------------------------------------------------------------- -/

structure Playlist where
  name : String := ""
  playlist_url : String := ""
  length : Nat := 0
deriving DecidableEq

structure Song where
  title : String := ""
  artists : List String := []
  song_url : String := ""
  playlist_url : String := ""
  error : String := ""
  playlist : Playlist := {}
  list_position : String := ""
deriving DecidableEq

/- ---------------------------------------------------------------------
   Error-log parser from src/utils.py parse_errors.
   A file is Option (List String): none models an unreadable file (the
   surrounding try/except), some ls the list of its lines.  A line whose
   processing raises IndexError inside the loop is LineResult.err: the
   exception escapes the loop and is caught by the outer except, so the
   records accumulated so far are returned.
   --------------------------------------------------------------------- -/

def trackPfx : List Char := "https://open.spotify.com/track/".data

def lkMarker : List Char := " - LookupError: No results found for song:".data

def aposChar : Char := Char.ofNat 39

def keMarker : List Char :=
  " - KeyError: ".data ++ [aposChar] ++ "webCommandMetadata".data ++ [aposChar]

def keSplitMarker : List Char := " - KeyError:".data

def keErrorString : String :=
  String.mk (("KeyError: ".data ++ [aposChar] ++ "webCommandMetadata".data ++ [aposChar]))

def apMarker : List Char := " - AudioProviderError: YT-DLP download error - ".data

def dashSep : List Char := [' ', '-', ' ']

inductive LineResult where
  | skip
  | song (s : Song)
  | err
deriving DecidableEq

-- The loop body of parse_errors applied to the stripped line.
def parse_stripped (playlist_url : String) (line : List Char) : LineResult :=
  if line = [] then .skip
  else if !(litAt trackPfx line) then .skip
  else if containsSub line lkMarker then
    match splitFirst lkMarker line with
    | none => .err
    | some (pre, rest) =>
      match splitAll dashSep rest with
      | seg0 :: seg1 :: _ =>
        .song { song_url := String.mk (pyStripL pre), playlist_url := playlist_url,
                error := "LookupError: No results found",
                title := String.mk (pyStripL seg1),
                artists := (splitAll [','] seg0).map (fun a => String.mk (pyStripL a)),
                playlist := { playlist_url := playlist_url } }
      | _ => .err
  else if containsSub line keMarker then
    match splitFirst keSplitMarker line with
    | none => .err
    | some (pre, _) =>
      .song { song_url := String.mk (pyStripL pre), playlist_url := playlist_url,
              error := keErrorString,
              playlist := { playlist_url := playlist_url } }
  else if containsSub line apMarker then
    match splitFirst apMarker line with
    | none => .err
    | some (pre, _) =>
      .song { song_url := String.mk (pyStripL pre), playlist_url := playlist_url,
              error := "AudioProviderError: YT-DLP download error",
              playlist := { playlist_url := playlist_url } }
  else .skip

def parse_error_line (playlist_url : String) (raw : String) : LineResult :=
  parse_stripped playlist_url (pyStripL raw.data)

def parseLoop (pl : String) : List String → List Song → List Song
  | [], acc => acc
  | l :: ls, acc =>
    match parse_error_line pl l with
    | .skip => parseLoop pl ls acc
    | .song s => parseLoop pl ls (acc ++ [s])
    | .err => acc

def parse_errors (file : Option (List String)) (playlist_url : String) : List Song :=
  match file with
  | none => []
  | some ls => parseLoop playlist_url ls []

/- ---------------------------------------------------------------------
   Link classifier from src/utils.py clean_url.  The five regular
   expressions are literal-head alternations followed by a greedy run of
   characters outside the class [whitespace, right paren, right bracket];
   re.search semantics (leftmost match, alternatives in written preference
   order, at least one tail character) are implemented directly.
   --------------------------------------------------------------------- -/

def urlTailChar (c : Char) : Bool := !(isPySpaceChar c) && c != ')' && c != ']'

def ytAlts : List (List Char) :=
  ["https://www.youtube.com/".data, "https://www.youtu.be/".data,
   "https://youtube.com/".data, "https://youtu.be/".data,
   "http://www.youtube.com/".data, "http://www.youtu.be/".data,
   "http://youtube.com/".data, "http://youtu.be/".data]

def scAlts : List (List Char) :=
  ["https://www.soundcloud.com/".data, "https://soundcloud.com/".data,
   "http://www.soundcloud.com/".data, "http://soundcloud.com/".data]

def spAlts : List (List Char) :=
  ["https://open.spotify.com/".data, "https://spotify.com/".data,
   "http://open.spotify.com/".data, "http://spotify.com/".data]

-- Try to match a bare URL pattern at the current position.
def tryUrlAt (alts : List (List Char)) (l : List Char) : Option (List Char) :=
  match alts with
  | [] => none
  | a :: rest =>
    if litAt a l then
      let tail := (l.drop a.length).takeWhile urlTailChar
      if tail = [] then tryUrlAt rest l else some (a ++ tail)
    else tryUrlAt rest l

-- Try to match the markdown pattern \((url)\) with the paren already consumed.
def tryMdAlts (alts : List (List Char)) (rest : List Char) : Option (List Char) :=
  match alts with
  | [] => none
  | a :: more =>
    if litAt a rest then
      let tail := (rest.drop a.length).takeWhile urlTailChar
      if tail = [] then tryMdAlts more rest
      else
        match rest.drop (a.length + tail.length) with
        | ')' :: _ => some (a ++ tail)
        | _ => tryMdAlts more rest
    else tryMdAlts more rest

def tryMdAt (alts : List (List Char)) (l : List Char) : Option (List Char) :=
  match l with
  | '(' :: rest => tryMdAlts alts rest
  | _ => none

-- re.search: scan left to right for the first position where f matches.
def searchL (f : List Char → Option (List Char)) : List Char → Option (List Char)
  | [] => f []
  | c :: cs =>
    match f (c :: cs) with
    | some u => some u
    | none => searchL f cs

-- The pipeline applied after the comment check and the strip.
def clean_url_core (l : List Char) : List Char :=
  match searchL (tryMdAt ytAlts) l with
  | some u => u
  | none =>
    match searchL (tryUrlAt ytAlts) l with
    | some u => u
    | none =>
      match searchL (tryUrlAt scAlts) l with
      | some u => u
      | none =>
        match searchL (tryMdAt spAlts) l with
        | some u => u
        | none =>
          match searchL (tryUrlAt spAlts) l with
          | some u => u
          | none => []

def clean_url (line : String) : String :=
  if litAt ['#'] line.data then ""
  else
    let l := pyStripL line.data
    if l = [] then "" else String.mk (clean_url_core l)

/- ---------------------------------------------------------------------
   Spotify reconciliation from src/downloaders/spotify.py
   find_missing_in_playlist.  Metadata is modelled after the shapes the
   code reads: playlist and album items are modelled already unwrapped
   (the code does tracks[i].get("track") or tracks[i]); a metadata blob of
   an unhandled type leaves the local variable tracks unbound, the
   resulting exception is caught and the scan yields no result, modelled
   as SpOutcome.metadataError.  The distinct log-and-return branches of
   the function are modelled as distinct SpOutcome constructors.
   --------------------------------------------------------------------- -/

structure SpTrack where
  name : String
  artists : List String
  url : String
deriving DecidableEq

inductive SpMeta where
  | playlist (tracks : List SpTrack)
  | album (tracks : List SpTrack)
  | artist
  | track (t : SpTrack)
  | other
deriving DecidableEq

def spTracks : SpMeta → Option (List SpTrack)
  | .playlist ts => some ts
  | .album ts => some ts
  | .artist => some []
  | .track t => some [t]
  | .other => none

structure FileEntry where
  stem : String
  suffix : String
deriving DecidableEq

def lowerStr (s : String) : String := String.mk (s.data.map Char.toLower)

def audioExts : List String := [".mp3", ".flac", ".m4a"]

def isAudio (f : FileEntry) : Bool := audioExts.contains (lowerStr f.suffix)

def digitsVal (ds : List Char) : Nat := ds.foldl (fun a c => a * 10 + (c.toNat - 48)) 0

-- re.match starting a stem with optional whitespace then digits: value and digit count.
def spNumPre (stem : String) : Option (Nat × Nat) :=
  let ds := (stem.data.dropWhile isPySpaceChar).takeWhile Char.isDigit
  if ds = [] then none else some (digitsVal ds, ds.length)

-- The SoundCloud variant anchors the digits at the very start of the stem.
def scNumPre (stem : String) : Option (Nat × Nat) :=
  let ds := stem.data.takeWhile Char.isDigit
  if ds = [] then none else some (digitsVal ds, ds.length)

def spParsed (files : List FileEntry) : List (Nat × Nat) :=
  files.filterMap (fun f => if isAudio f then spNumPre f.stem else none)

def spNumbers (files : List FileEntry) : List Nat := (spParsed files).map Prod.fst

def spPadding (files : List FileEntry) : Nat :=
  (spParsed files).foldl (fun a p => max a p.2) 0

-- Python f-string 0-padding of a number to the given width.
def padNum (padding n : Nat) : String :=
  String.mk (List.replicate (padding - (Nat.toDigits 10 n).length) '0' ++ Nat.toDigits 10 n)

def spMissingNums (ts : List SpTrack) (files : List FileEntry) : List Nat :=
  (List.range' 1 ts.length).filter (fun n => !((spNumbers files).contains n))

def spMkSong (playlistName : String) (ts : List SpTrack) (padding num : Nat) : Option Song :=
  if h : num - 1 < ts.length then
    some { song_url := (ts.get ⟨num - 1, h⟩).url, playlist_url := "",
           error := "Missing " ++ padNum padding num,
           title := String.mk (pyStripL (ts.get ⟨num - 1, h⟩).name.data),
           artists := (ts.get ⟨num - 1, h⟩).artists,
           playlist := { playlist_url := "", name := playlistName, length := ts.length },
           list_position := padNum padding num }
  else none

inductive SpOutcome where
  | noMetadata
  | metadataError
  | noResult
  | allPresent
  | missing (songs : List Song)
deriving DecidableEq

def find_missing_in_playlist (playlistName : String) (meta : Option SpMeta)
    (files : List FileEntry) : SpOutcome :=
  match meta with
  | none => .noMetadata
  | some m =>
    match spTracks m with
    | none => .metadataError
    | some ts =>
      if spNumbers files = [] then .noResult
      else if spMissingNums ts files = [] then .allPresent
      else .missing ((spMissingNums ts files).filterMap
        (spMkSong playlistName ts (spPadding files)))

def missingList : SpOutcome → List Song
  | .missing s => s
  | _ => []

/- ---------------------------------------------------------------------
   SoundCloud cleanup from src/downloaders/soundcloud.py cleanup_playlist.
   The playlist directory and the .metadata root are explicit lists of
   entries; an entry carries the name and the part of its content the code
   reads (for a metadata json: the playlist_count field if the blob parses).
   The pass renames the first *.info.json into the metadata root, loads it
   (an unparseable blob degrades to an empty dict), takes playlist_count
   with fallback len(info_files), scans *.mp3 stems for leading digit runs,
   reports every expected position without a parsed number, rewrites the
   metadata json, moves the .description file, and deletes the remaining
   *.info.json files.  The aggregated songs array written into the json is
   below the granularity of SCContent and not modelled.
   --------------------------------------------------------------------- -/

inductive SCContent where
  | json (playlistCount : Option Nat)
  | invalid
  | media
deriving DecidableEq

structure SCEntry where
  name : String
  content : SCContent
deriving DecidableEq

structure SCState where
  playlistDir : List SCEntry
  metadataRoot : List SCEntry
deriving DecidableEq

def endsWithL (suf l : List Char) : Bool := litAt suf.reverse l.reverse

def isInfoJson (e : SCEntry) : Bool := endsWithL ".info.json".data e.name.data

-- pathlib stem and suffix: split at the last dot, none for a leading-dot or
-- trailing-dot name.
def extSplit (cs : List Char) : List Char × List Char :=
  let r := cs.reverse
  let afterDot := r.takeWhile (fun c => c != '.')
  match r.drop afterDot.length with
  | [] => (cs, [])
  | _ :: restTail =>
    if afterDot = [] then (cs, [])
    else if restTail = [] then (cs, [])
    else (restTail.reverse, '.' :: afterDot.reverse)

def pathSuffix (name : String) : String := String.mk (extSplit name.data).2

def pathStem (name : String) : String := String.mk (extSplit name.data).1

def isMp3 (e : SCEntry) : Bool := lowerStr (pathSuffix e.name) == ".mp3"

def scInfoFiles (st : SCState) : List SCEntry := st.playlistDir.filter isInfoJson

-- Directory contents after the first info file was renamed away.
def scDirAfterRename (st : SCState) : List SCEntry := st.playlistDir.eraseP isInfoJson

-- playlist_count of the loaded metadata (an unparseable blob gives {}).
def scPlaylistData (st : SCState) : Option Nat :=
  match scInfoFiles st with
  | [] => none
  | f :: _ =>
    match f.content with
    | .json pc => pc
    | _ => none

def scExpectedCount (st : SCState) : Option Nat :=
  match scInfoFiles st with
  | [] => none
  | _ => some ((scPlaylistData st).getD (scInfoFiles st).length)

def scParsed (st : SCState) : List (Nat × Nat) :=
  (scDirAfterRename st).filterMap
    (fun e => if isMp3 e then scNumPre (pathStem e.name) else none)

def scNumbers (st : SCState) : List Nat := (scParsed st).map Prod.fst

def scPadding (st : SCState) : Nat := (scParsed st).foldl (fun a p => max a p.2) 0

def scMissingNumbers (st : SCState) (expected : Nat) : List Nat :=
  (List.range' 1 expected).filter (fun n => !((scNumbers st).contains n))

def scMkSong (playlistName : String) (expected padding num : Nat) : Song :=
  { song_url := "", playlist_url := "",
    error := "Missing " ++ padNum padding num,
    playlist := { playlist_url := "", name := playlistName, length := expected },
    list_position := padNum padding num }

def cleanup_playlist (playlistName : String) (st : SCState) : SCState × List Song :=
  match scInfoFiles st with
  | [] => (st, [])
  | firstInfo :: _ =>
    let expected := (scPlaylistData st).getD (scInfoFiles st).length
    let missingSongs :=
      (scMissingNumbers st expected).map (scMkSong playlistName expected (scPadding st))
    let metaName := playlistName ++ ".json"
    let txtName := playlistName ++ ".txt"
    let descName := playlistName ++ ".description"
    let dir1 := scDirAfterRename st
    let meta1 := st.metadataRoot.filter (fun e => e.name != metaName) ++
      [{ name := metaName, content := firstInfo.content }]
    let meta2 :=
      match dir1.find? (fun e => e.name == descName) with
      | some d => meta1.filter (fun e => e.name != txtName) ++
          [{ name := txtName, content := d.content }]
      | none => meta1
    let dir2 := dir1.filter (fun e => e.name != descName)
    let dir3 := dir2.filter (fun e => !(isInfoJson e))
    ({ playlistDir := dir3, metadataRoot := meta2 }, missingSongs)

/- ---------------------------------------------------------------------
   Orchestrator from src/coordinator.py.  Each download step yields a
   process exit code; process_provider folds one provider link list, and
   process_all folds the providers in their fixed order, keeping the last
   nonzero code seen at each level.
   --------------------------------------------------------------------- -/

def process_provider (codes : List Int) : Int :=
  codes.foldl (fun acc c => if c ≠ 0 then c else acc) 0

def process_all (providers : List (List Int)) : Int :=
  providers.foldl
    (fun acc cs =>
      let e := process_provider cs
      if e ≠ 0 then e else acc) 0

-- The last nonzero element of a code sequence, 0 when every code is 0.
def lastNonzeroOr0 (l : List Int) : Int :=
  ((l.filter (fun c => c != 0)).getLast?).getD 0

/- ---------------------------------------------------------------------
   Lemmas about the orchestrator folds.
   --------------------------------------------------------------------- -/

theorem mem_of_getLast?_eq_some {α : Type} {l : List α} {x : α}
    (h : l.getLast? = some x) : x ∈ l := by
  induction l using List.reverseRecOn with
  | nil => simp at h
  | append_singleton l c _ =>
    rw [List.getLast?_concat] at h
    cases h
    simp

theorem getLast?_append_or {α : Type} (m n : List α) :
    (m ++ n).getLast? = n.getLast?.or m.getLast? := by
  induction n using List.reverseRecOn with
  | nil => simp
  | append_singleton n c _ =>
    rw [← List.append_assoc, List.getLast?_concat, List.getLast?_concat]
    rfl

theorem foldl_code_eq (l : List Int) (a : Int) :
    l.foldl (fun acc c => if c ≠ 0 then c else acc) a
      = ((l.filter (fun c => c != 0)).getLast?).getD a := by
  induction l using List.reverseRecOn generalizing a with
  | nil => rfl
  | append_singleton l c ih =>
    rw [List.foldl_append, List.filter_append]
    by_cases hc : c = 0
    · subst hc
      have h1 : List.filter (fun c => c != 0) [(0 : Int)] = [] := rfl
      have h2 : List.foldl (fun acc c => if c ≠ 0 then c else acc)
          (List.foldl (fun acc c => if c ≠ 0 then c else acc) a l) [(0 : Int)]
          = List.foldl (fun acc c => if c ≠ 0 then c else acc) a l := by
        simp only [List.foldl_cons, List.foldl_nil]
        show (if (0 : Int) ≠ 0 then (0 : Int) else _) = _
        exact if_neg (fun h => h rfl)
      rw [h1, h2, List.append_nil, ih]
    · simp only [List.foldl_cons, List.foldl_nil, if_pos hc]
      have hf : List.filter (fun c => c != 0) [c] = [c] := by simp [hc]
      rw [hf, List.getLast?_concat]
      rfl

theorem process_provider_eq (l : List Int) :
    process_provider l = lastNonzeroOr0 l := foldl_code_eq l 0

theorem process_all_eq (ps : List (List Int)) :
    process_all ps = lastNonzeroOr0 ps.flatten := by
  induction ps using List.reverseRecOn with
  | nil => rfl
  | append_singleton ps cs ih =>
    have hflat : (ps ++ [cs]).flatten = ps.flatten ++ cs := by simp
    rw [hflat]
    show List.foldl _ 0 (ps ++ [cs]) = _
    rw [List.foldl_append]
    simp only [List.foldl_cons, List.foldl_nil]
    show (if process_provider cs ≠ 0 then process_provider cs else process_all ps) = _
    rw [ih, process_provider_eq]
    unfold lastNonzeroOr0
    rw [List.filter_append, getLast?_append_or]
    cases h : ((cs.filter (fun c => c != 0)).getLast?) with
    | none => simp [h]
    | some x =>
      have hx : x ∈ cs.filter (fun c => c != 0) := mem_of_getLast?_eq_some h
      have hx0 : x ≠ 0 := by
        have := List.of_mem_filter hx
        simpa using this
      simp [h, hx0]

theorem lastNonzeroOr0_eq_zero_iff (l : List Int) :
    lastNonzeroOr0 l = 0 ↔ ∀ c ∈ l, c = 0 := by
  unfold lastNonzeroOr0
  constructor
  · intro h0 c hc
    by_contra hne
    have hmem : c ∈ l.filter (fun c => c != 0) := by
      rw [List.mem_filter]
      exact ⟨hc, by simpa using hne⟩
    have hne2 : l.filter (fun c => c != 0) ≠ [] := List.ne_nil_of_mem hmem
    have hsome : ∃ x, (l.filter (fun c => c != 0)).getLast? = some x := by
      rw [← Option.isSome_iff_exists, List.getLast?_isSome]
      exact hne2
    obtain ⟨x, hx⟩ := hsome
    have hx0 : x ≠ 0 := by
      have := List.of_mem_filter (mem_of_getLast?_eq_some hx)
      simpa using this
    rw [hx] at h0
    exact hx0 h0
  · intro hall
    have hnil : l.filter (fun c => c != 0) = [] := by
      rw [List.filter_eq_nil_iff]
      intro a ha
      simpa using hall a ha
    rw [hnil]
    rfl

/-- C8: for every sequence of links processed, the aggregate exit code of
the orchestrator is 0 exactly when every download exit code in every
provider group was 0; otherwise it equals the last nonzero download exit
code seen, and every link of every provider is folded into the result
(the fold always consumes the final link, whatever codes came before). -/
theorem spec_c8 (providers : List (List Int)) :
    (process_all providers = 0 ↔ ∀ c ∈ providers.flatten, c = 0) ∧
    process_all providers = lastNonzeroOr0 providers.flatten ∧
    (∀ pre c, process_provider (pre ++ [c]) = if c ≠ 0 then c else process_provider pre) := by
  refine ⟨?_, process_all_eq providers, ?_⟩
  · rw [process_all_eq]
    exact lastNonzeroOr0_eq_zero_iff providers.flatten
  · intro pre c
    show List.foldl _ 0 (pre ++ [c]) = _
    rw [List.foldl_append]
    rfl

/-- C8 witness: the aggregate over providers [[0, 2], [0], [3, 0]] is the
last nonzero code 3, and a fully clean run aggregates to 0. -/
theorem spec_c8_witness :
    process_all [[0, 2], [0], [3, 0]] = 3 ∧ process_all [[0], [0, 0]] = 0 := by
  constructor
  · exact (spec_c8 [[0, 2], [0], [3, 0]]).2.1.trans (by decide)
  · exact ((spec_c8 [[0], [0, 0]]).1).mpr (by decide)

/- ---------------------------------------------------------------------
   Lemmas and claims about the reconciliation passes (C1, C4, C9).
   --------------------------------------------------------------------- -/

theorem eraseP_filter_filter {α : Type} (p q : α → Bool) :
    ∀ l : List α, ((l.eraseP p).filter q).filter (fun e => !(p e))
      = l.filter (fun e => !(p e) && q e) := by
  intro l
  induction l with
  | nil => rfl
  | cons e l ih =>
    by_cases hp : p e = true
    · rw [List.eraseP_cons_of_pos hp]
      have hr : List.filter (fun e => !(p e) && q e) (e :: l)
          = List.filter (fun e => !(p e) && q e) l := by
        simp [List.filter_cons, hp]
      rw [hr, List.filter_filter]
    · have hp2 : p e = false := by
        cases h2 : p e with
        | true => exact absurd h2 hp
        | false => rfl
      rw [List.eraseP_cons_of_neg (by simp [hp2])]
      by_cases hq : q e = true
      · simp [List.filter_cons, hp2, hq, ih]
      · have hq2 : q e = false := by
          cases h2 : q e with
          | true => exact absurd h2 hq
          | false => rfl
        simp [List.filter_cons, hp2, hq2, ih]

/-- C9 (amended): a SoundCloud cleanup pass with no info file leaves the
state untouched, and otherwise its effect on the scanned directory is
exactly the removal of the *.info.json sidecar files and of the
<name>.description file; in particular the expected-count metadata it
read is never written back into the scanned directory and the Spotify
scan (a pure function of metadata and directory listing) writes nothing. -/
theorem spec_c9_thm (name : String) (st : SCState) :
    (scInfoFiles st = [] → cleanup_playlist name st = (st, [])) ∧
    (scInfoFiles st ≠ [] →
      (cleanup_playlist name st).1.playlistDir
        = st.playlistDir.filter
            (fun e => !(isInfoJson e) && e.name != name ++ ".description")) := by
  constructor
  · intro hif
    simp [cleanup_playlist, hif]
  · intro hne
    cases hif : scInfoFiles st with
    | nil => exact absurd hif hne
    | cons f rest =>
      simp only [cleanup_playlist, hif]
      exact eraseP_filter_filter isInfoJson (fun e => e.name != name ++ ".description")
        st.playlistDir

def c9state : SCState :=
  { playlistDir := [{ name := "pl.info.json", content := .json (some 1) },
                    { name := "x.info.json", content := .invalid }],
    metadataRoot := [] }

/-- C9 counterexample: on a directory holding two info files the cleanup
pass deletes on-disk entries of the directory it scans, so the scanned
directory is not unchanged after reconciliation. -/
theorem spec_c9_counterexample :
    (cleanup_playlist "pl" c9state).1.playlistDir ≠ c9state.playlistDir ∧
    (cleanup_playlist "pl" c9state).1.playlistDir = [] ∧
    c9state.playlistDir.length = 2 := by decide

/-- C9 witness: the amended characterisation evaluated on a concrete
directory with an info file, an mp3 file and a description file. -/
theorem spec_c9_witness :
    (cleanup_playlist "w"
      { playlistDir := [{ name := "w.info.json", content := .json (some 1) },
                        { name := "01 a.mp3", content := .media },
                        { name := "w.description", content := .media }],
        metadataRoot := [] }).1.playlistDir
      = [{ name := "01 a.mp3", content := .media }] := by
  have h := (spec_c9_thm "w"
    { playlistDir := [{ name := "w.info.json", content := .json (some 1) },
                      { name := "01 a.mp3", content := .media },
                      { name := "w.description", content := .media }],
      metadataRoot := [] }).2 (by decide)
  rw [h]
  decide

/-- C1 (amended): with no parseable numbered file, the Spotify scan
reports the distinct no-result outcome (neither an empty missing list nor
an all-missing list), while the SoundCloud cleanup pass reports every one
of the N expected positions as missing, rendered with padding width 0. -/
theorem spec_c1_thm :
    (∀ (name : String) (m : SpMeta) (ts : List SpTrack) (files : List FileEntry),
        spTracks m = some ts → spNumbers files = [] →
        find_missing_in_playlist name (some m) files = SpOutcome.noResult) ∧
    (∀ (name : String) (st : SCState) (E : Nat),
        scExpectedCount st = some E → scParsed st = [] →
        ((cleanup_playlist name st).2).map Song.list_position
          = (List.range' 1 E).map (fun n => padNum 0 n)) := by
  constructor
  · intro name m ts files h1 h2
    simp [find_missing_in_playlist, h1, h2]
  · intro name st E hE hp
    cases hif : scInfoFiles st with
    | nil => simp [scExpectedCount, hif] at hE
    | cons f rest =>
      have hE2 : (scPlaylistData st).getD (scInfoFiles st).length = E := by
        simp only [scExpectedCount, hif] at hE
        rw [← hif] at hE
        exact Option.some.inj hE
      have hn : scNumbers st = [] := by rw [scNumbers, hp]; rfl
      have hpad : scPadding st = 0 := by rw [scPadding, hp]; rfl
      have hmiss : scMissingNumbers st E = List.range' 1 E := by
        rw [scMissingNumbers, hn]
        apply List.filter_eq_self.mpr
        intro a _
        rfl
      simp only [cleanup_playlist, hif]
      rw [← hif, hE2, hmiss, hpad, List.map_map]
      rfl

def c1state : SCState :=
  { playlistDir := [{ name := "pl.info.json", content := .json (some 2) }],
    metadataRoot := [] }

/-- C1 counterexample: a SoundCloud container with expected count 2 and no
parseable on-disk file makes reconciliation return both expected positions
as missing, the all-N-missing outcome the claim rules out. -/
theorem spec_c1_counterexample :
    scExpectedCount c1state = some 2 ∧ scParsed c1state = [] ∧
    ((cleanup_playlist "pl" c1state).2).map Song.list_position = ["1", "2"] ∧
    ((cleanup_playlist "pl" c1state).2).length = 2 := by decide

/-- C1 witness: the amended statement evaluated on a Spotify container
with metadata but no parseable file, and on the SoundCloud state of the
counterexample. -/
theorem spec_c1_witness :
    find_missing_in_playlist "P" (some (SpMeta.playlist [{ name := "a", artists := [], url := "u" }])) []
      = SpOutcome.noResult ∧
    ((cleanup_playlist "pl" c1state).2).map Song.list_position
      = (List.range' 1 2).map (fun n => padNum 0 n) := by
  constructor
  · exact spec_c1_thm.1 "P" _ [{ name := "a", artists := [], url := "u" }] [] rfl rfl
  · exact spec_c1_thm.2 "pl" c1state 2 (by decide) (by decide)

/-- C4 (amended): the expected count used by reconciliation comes from
provider metadata when the metadata carries it: SoundCloud uses the
playlist_count field when present, but falls back to counting the on-disk
*.info.json files when the metadata blob lacks it or fails to parse;
Spotify always bounds its missing positions by the metadata track-list
length, for every directory listing. -/
theorem spec_c4_thm :
    (∀ (st : SCState) (f : SCEntry) (rest : List SCEntry) (pc : Nat),
        scInfoFiles st = f :: rest → f.content = SCContent.json (some pc) →
        scExpectedCount st = some pc) ∧
    (∀ (st : SCState) (f : SCEntry) (rest : List SCEntry),
        scInfoFiles st = f :: rest → scPlaylistData st = none →
        scExpectedCount st = some (scInfoFiles st).length) ∧
    (∀ (m : SpMeta) (ts : List SpTrack) (files : List FileEntry) (n : Nat),
        spTracks m = some ts → n ∈ spMissingNums ts files → n ≤ ts.length) := by
  refine ⟨?_, ?_, ?_⟩
  · intro st f rest pc hif hc
    have hpd : scPlaylistData st = some pc := by
      unfold scPlaylistData
      rw [hif]
      show (match f.content with | SCContent.json pc => pc | _ => none) = some pc
      rw [hc]
    unfold scExpectedCount
    rw [hif]
    show some ((scPlaylistData st).getD (f :: rest).length) = some pc
    rw [hpd]
    rfl
  · intro st f rest hif hpd
    unfold scExpectedCount
    rw [hif]
    show some ((scPlaylistData st).getD (f :: rest).length) = some (f :: rest).length
    rw [hpd]
    rfl
  · intro m ts files n _ hn
    have := List.mem_filter.mp hn
    have hr := this.1
    rw [List.mem_range'_1] at hr
    omega

def c4stateA : SCState :=
  { playlistDir := [{ name := "a.info.json", content := .invalid },
                    { name := "b.info.json", content := .invalid },
                    { name := "c.info.json", content := .invalid }],
    metadataRoot := [] }

def c4stateB : SCState :=
  { playlistDir := [{ name := "a.info.json", content := .invalid }],
    metadataRoot := [] }

/-- C4 counterexample: two SoundCloud containers with identical
(unparseable, hence empty) metadata but different numbers of on-disk info
files get different expected counts, equal to the file counts: the
expected count is obtained by counting files, not from metadata only. -/
theorem spec_c4_counterexample :
    scExpectedCount c4stateA = some 3 ∧ scExpectedCount c4stateB = some 1 ∧
    c4stateA.playlistDir.all (fun e => e.content == SCContent.invalid) = true ∧
    c4stateB.playlistDir.all (fun e => e.content == SCContent.invalid) = true ∧
    (scInfoFiles c4stateA).length = 3 ∧ (scInfoFiles c4stateB).length = 1 := by decide

/-- C4 witness: the amended statement evaluated on a state whose metadata
carries playlist_count 7, and on a Spotify run with a two-track list. -/
theorem spec_c4_witness :
    scExpectedCount
      { playlistDir := [{ name := "w.info.json", content := .json (some 7) }],
        metadataRoot := [] } = some 7 ∧
    (1 : Nat) ≤ ([{ name := "t", artists := [], url := "u" },
                  { name := "s", artists := [], url := "v" }] : List SpTrack).length := by
  constructor
  · exact spec_c4_thm.1
      { playlistDir := [{ name := "w.info.json", content := SCContent.json (some 7) }],
        metadataRoot := [] }
      { name := "w.info.json", content := SCContent.json (some 7) } [] 7 (by decide) rfl
  · exact spec_c4_thm.2.2
      (SpMeta.playlist [{ name := "t", artists := [], url := "u" },
                        { name := "s", artists := [], url := "v" }])
      [{ name := "t", artists := [], url := "u" },
       { name := "s", artists := [], url := "v" }]
      [{ stem := "2 x", suffix := ".mp3" }] 1 rfl (by decide)

/- ---------------------------------------------------------------------
   Lemmas and claims about the Spotify missing-track scan (C2, C3).
   --------------------------------------------------------------------- -/

theorem find_missing_eq (name : String) (m : SpMeta) (ts : List SpTrack)
    (files : List FileEntry) (hts : spTracks m = some ts) :
    find_missing_in_playlist name (some m) files =
      if spNumbers files = [] then .noResult
      else if spMissingNums ts files = [] then .allPresent
      else .missing ((spMissingNums ts files).filterMap
        (spMkSong name ts (spPadding files))) := by
  simp only [find_missing_in_playlist]
  rw [hts]

theorem mem_missingList_iff (name : String) (m : SpMeta) (ts : List SpTrack)
    (files : List FileEntry) (s : Song) (hts : spTracks m = some ts) :
    (s ∈ missingList (find_missing_in_playlist name (some m) files)) ↔
      (spNumbers files ≠ [] ∧ ∃ n, n ∈ spMissingNums ts files ∧
        spMkSong name ts (spPadding files) n = some s) := by
  rw [find_missing_eq name m ts files hts]
  by_cases hn : spNumbers files = []
  · simp [hn, missingList]
  · by_cases hm : spMissingNums ts files = []
    · simp [hn, hm, missingList]
    · simp [hn, hm, missingList, List.mem_filterMap]

theorem foldl_max_le_init (l : List (Nat × Nat)) (a : Nat) :
    a ≤ l.foldl (fun x p => max x p.2) a := by
  induction l generalizing a with
  | nil => exact le_refl a
  | cons q l ih => exact le_trans (le_max_left a q.2) (ih (max a q.2))

theorem foldl_max_mem (l : List (Nat × Nat)) (p : Nat × Nat) (hp : p ∈ l) (a : Nat) :
    p.2 ≤ l.foldl (fun x q => max x q.2) a := by
  induction l generalizing a with
  | nil => cases hp
  | cons q l ih =>
    cases hp with
    | head => exact le_trans (le_max_right a p.2) (foldl_max_le_init l (max a p.2))
    | tail _ hmem => exact ih hmem (max a q.2)

theorem foldl_max_cases (l : List (Nat × Nat)) :
    ∀ a, l.foldl (fun x p => max x p.2) a = a ∨
      ∃ p ∈ l, l.foldl (fun x p => max x p.2) a = p.2 := by
  induction l with
  | nil => intro a; exact Or.inl rfl
  | cons q l ih =>
    intro a
    cases ih (max a q.2) with
    | inl h =>
      cases Nat.le_total a q.2 with
      | inl hle =>
        right
        refine ⟨q, List.mem_cons_self q l, ?_⟩
        show List.foldl _ (max a q.2) l = q.2
        rw [h, Nat.max_eq_right hle]
      | inr hge =>
        left
        show List.foldl _ (max a q.2) l = a
        rw [h, Nat.max_eq_left hge]
    | inr h =>
      obtain ⟨p, hp, heq⟩ := h
      exact Or.inr ⟨p, List.mem_cons_of_mem q hp, heq⟩

theorem spParsed_snd_pos (files : List FileEntry) (p : Nat × Nat)
    (hp : p ∈ spParsed files) : 1 ≤ p.2 := by
  unfold spParsed at hp
  rw [List.mem_filterMap] at hp
  obtain ⟨f, _, hf⟩ := hp
  by_cases ha : isAudio f = true
  · rw [if_pos ha] at hf
    unfold spNumPre at hf
    by_cases hd : (f.stem.data.dropWhile isPySpaceChar).takeWhile Char.isDigit = []
    · rw [if_pos hd] at hf
      cases hf
    · rw [if_neg hd] at hf
      cases hf
      show 1 ≤ ((f.stem.data.dropWhile isPySpaceChar).takeWhile Char.isDigit).length
      cases h2 : (f.stem.data.dropWhile isPySpaceChar).takeWhile Char.isDigit with
      | nil => exact absurd h2 hd
      | cons x xs => simp
  · rw [if_neg ha] at hf
    cases hf

/-- C3: every missing position reported by the Spotify scan is rendered
with the padding width spPadding of the scanned files, in both its
list_position and its error tag; that width is the maximum digit count
observed among the parsed numeric prefixes (an upper bound attained by
some parsed entry), and it does not mention the expected count at all. -/
theorem spec_c3 :
    (∀ (name : String) (m : SpMeta) (files : List FileEntry) (s : Song),
        s ∈ missingList (find_missing_in_playlist name (some m) files) →
        ∃ ts n, spTracks m = some ts ∧ n ∈ spMissingNums ts files ∧
          s.list_position = padNum (spPadding files) n ∧
          s.error = "Missing " ++ padNum (spPadding files) n) ∧
    (∀ (files : List FileEntry) (d : Nat),
        d ∈ (spParsed files).map Prod.snd → d ≤ spPadding files) ∧
    (∀ files : List FileEntry,
        spParsed files ≠ [] → spPadding files ∈ (spParsed files).map Prod.snd) := by
  refine ⟨?_, ?_, ?_⟩
  · intro name m files s hs
    cases hts : spTracks m with
    | none =>
      rw [show find_missing_in_playlist name (some m) files = .metadataError by
        simp only [find_missing_in_playlist]; rw [hts]] at hs
      cases hs
    | some ts =>
      obtain ⟨_, n, hn, hmk⟩ := (mem_missingList_iff name m ts files s hts).mp hs
      unfold spMkSong at hmk
      by_cases hlt : n - 1 < ts.length
      · rw [dif_pos hlt] at hmk
        cases hmk
        exact ⟨ts, n, rfl, hn, rfl, rfl⟩
      · rw [dif_neg hlt] at hmk
        cases hmk
  · intro files d hd
    rw [List.mem_map] at hd
    obtain ⟨p, hp, rfl⟩ := hd
    exact foldl_max_mem (spParsed files) p hp 0
  · intro files hne
    cases foldl_max_cases (spParsed files) 0 with
    | inl h =>
      cases hp : spParsed files with
      | nil => exact absurd hp hne
      | cons p l =>
        have hpos : 1 ≤ p.2 := spParsed_snd_pos files p (by rw [hp]; exact List.mem_cons_self p l)
        have hle : p.2 ≤ spPadding files := by
          unfold spPadding
          exact foldl_max_mem (spParsed files) p (by rw [hp]; exact List.mem_cons_self p l) 0
        have h0 : spPadding files = 0 := h
        omega
    | inr h =>
      obtain ⟨p, hp, heq⟩ := h
      rw [List.mem_map]
      exact ⟨p, hp, heq.symm⟩

def c3track : SpTrack := { name := "t", artists := [], url := "u" }

def c3meta : SpMeta := .playlist (List.replicate 12 c3track)

def c3files : List FileEntry :=
  [{ stem := "007 a", suffix := ".mp3" }, { stem := "12 b", suffix := ".mp3" }]

def c3song : Song :=
  { title := "t", artists := [], song_url := "u", playlist_url := "",
    error := "Missing 003",
    playlist := { name := "P", playlist_url := "", length := 12 },
    list_position := "003" }

/-- C3 witness: files numbered 007 and 12 give padding width 3, and the
reported missing position 3 renders as 003 even though the expected count
is 12. -/
theorem spec_c3_witness :
    (∃ ts n, spTracks c3meta = some ts ∧ n ∈ spMissingNums ts c3files ∧
      c3song.list_position = padNum (spPadding c3files) n ∧
      c3song.error = "Missing " ++ padNum (spPadding c3files) n) ∧
    spPadding c3files = 3 ∧ padNum (spPadding c3files) 3 = "003" := by
  refine ⟨spec_c3.1 "P" c3meta c3files c3song (by decide), by decide, by decide⟩

/-- C2 (amended): for every missing position n found by the Spotify scan,
when n-1 indexes into the expected track list the emitted record carries
that track artists and canonical URL exactly and its title up to
surrounding-whitespace stripping (the code applies strip() to the metadata
name); positions beyond the expected list length cannot arise, because the
expected count is the length of that very list, so the bare-record clause
holds vacuously. -/
theorem spec_c2_thm (name : String) (m : SpMeta) (ts : List SpTrack)
    (files : List FileEntry) (n : Nat)
    (hts : spTracks m = some ts) (hn : n ∈ spMissingNums ts files)
    (hne : spNumbers files ≠ []) :
    (∀ t, ts.get? (n - 1) = some t →
        ∃ s, s ∈ missingList (find_missing_in_playlist name (some m) files) ∧
          s.title = String.mk (pyStripL t.name.data) ∧
          s.artists = t.artists ∧ s.song_url = t.url ∧
          s.list_position = padNum (spPadding files) n ∧
          s.error = "Missing " ++ padNum (spPadding files) n) ∧
    (ts.length < n →
        ∃ s, s ∈ missingList (find_missing_in_playlist name (some m) files) ∧
          s.title = "" ∧ s.artists = [] ∧ s.song_url = "" ∧
          s.list_position = padNum (spPadding files) n) := by
  constructor
  · intro t ht
    have hlt : n - 1 < ts.length := (List.get?_eq_some.mp ht).1
    have hget : ts.get ⟨n - 1, hlt⟩ = t := (List.get?_eq_some.mp ht).2
    refine ⟨{ song_url := t.url, playlist_url := "",
              error := "Missing " ++ padNum (spPadding files) n,
              title := String.mk (pyStripL t.name.data), artists := t.artists,
              playlist := { playlist_url := "", name := name, length := ts.length },
              list_position := padNum (spPadding files) n }, ?_, rfl, rfl, rfl, rfl, rfl⟩
    apply (mem_missingList_iff name m ts files _ hts).mpr
    refine ⟨hne, n, hn, ?_⟩
    unfold spMkSong
    rw [dif_pos hlt, hget]
  · intro hgt
    have hr := (List.mem_filter.mp hn).1
    rw [List.mem_range'_1] at hr
    omega

def c2meta : SpMeta := .playlist [{ name := " Song ", artists := ["A"], url := "u" }]

def c2files : List FileEntry := [{ stem := "2 x", suffix := ".mp3" }]

/-- C2 counterexample: a metadata track named with surrounding whitespace
is emitted with the stripped title, not the exact metadata title, so the
record does not carry the exact title of the expected track. -/
theorem spec_c2_counterexample :
    (missingList (find_missing_in_playlist "P" (some c2meta) c2files)).map Song.title
      = ["Song"] ∧
    spTracks c2meta = some [{ name := " Song ", artists := ["A"], url := "u" }] ∧
    ("Song" : String) ≠ " Song " := by decide

def c2wtrack : SpTrack := { name := "Alpha", artists := ["X"], url := "us" }

def c2wmeta : SpMeta :=
  .playlist [c2wtrack, { name := "Beta", artists := [], url := "ub" }]

def c2wfiles : List FileEntry := [{ stem := "2 b", suffix := ".mp3" }]

/-- C2 witness: the amended statement evaluated at missing position 1 of a
two-track playlist whose only on-disk file is numbered 2. -/
theorem spec_c2_witness :
    ∃ s, s ∈ missingList (find_missing_in_playlist "W" (some c2wmeta) c2wfiles) ∧
      s.title = String.mk (pyStripL c2wtrack.name.data) ∧
      s.artists = c2wtrack.artists ∧ s.song_url = c2wtrack.url ∧
      s.list_position = padNum (spPadding c2wfiles) 1 ∧
      s.error = "Missing " ++ padNum (spPadding c2wfiles) 1 :=
  (spec_c2_thm "W" c2wmeta
    [c2wtrack, { name := "Beta", artists := [], url := "ub" }] c2wfiles 1
    rfl (by decide) (by decide)).1 c2wtrack (by decide)

/- ---------------------------------------------------------------------
   Claim C10: the comment check of clean_url runs on the raw line, before
   the strip.
   --------------------------------------------------------------------- -/

/-- C10: clean_url skips exactly the lines whose very first character is
the hash; every other line is stripped and fed to the search pipeline, so
a line of leading whitespace followed by a hash is not treated as a
comment and a recognized provider URL inside it is still extracted. -/
theorem spec_c10 :
    (∀ line : String, litAt ['#'] line.data = true → clean_url line = "") ∧
    (∀ line : String, litAt ['#'] line.data = false → pyStripL line.data ≠ [] →
        clean_url line = String.mk (clean_url_core (pyStripL line.data))) ∧
    clean_url "   # https://open.spotify.com/track/ABC"
      = "https://open.spotify.com/track/ABC" := by
  refine ⟨?_, ?_, by decide⟩
  · intro line h
    unfold clean_url
    rw [if_pos h]
  · intro line h hne
    unfold clean_url
    rw [if_neg (by simp [h])]
    show (if pyStripL line.data = [] then ""
      else String.mk (clean_url_core (pyStripL line.data))) = _
    rw [if_neg hne]

/-- C10 witness: a hash-first line yields nothing and a non-comment line
goes through the stripped pipeline. -/
theorem spec_c10_witness :
    clean_url "#x" = "" ∧
    clean_url " a" = String.mk (clean_url_core (pyStripL " a".data)) :=
  ⟨spec_c10.1 "#x" (by decide), spec_c10.2.1 " a" (by decide) (by decide)⟩

/- ---------------------------------------------------------------------
   Claim C7: behaviour of parse_errors on unreadable and malformed files.
   --------------------------------------------------------------------- -/

def songsOfLines (pl : String) (ls : List String) : List Song :=
  ls.filterMap (fun l =>
    match parse_error_line pl l with
    | .song s => some s
    | _ => none)

theorem parseLoop_no_err (pl : String) :
    ∀ (ls : List String) (acc : List Song),
      (∀ l ∈ ls, parse_error_line pl l ≠ .err) →
      parseLoop pl ls acc = acc ++ songsOfLines pl ls := by
  intro ls
  induction ls with
  | nil => intro acc _; simp [parseLoop, songsOfLines]
  | cons l ls ih =>
    intro acc h
    cases hr : parse_error_line pl l with
    | skip =>
      rw [show parseLoop pl (l :: ls) acc = parseLoop pl ls acc by
        simp only [parseLoop, hr]]
      rw [ih acc (fun x hx => h x (List.mem_cons_of_mem l hx))]
      have : songsOfLines pl (l :: ls) = songsOfLines pl ls := by
        simp only [songsOfLines, List.filterMap_cons, hr]
      rw [this]
    | song s =>
      rw [show parseLoop pl (l :: ls) acc = parseLoop pl ls (acc ++ [s]) by
        simp only [parseLoop, hr]]
      rw [ih (acc ++ [s]) (fun x hx => h x (List.mem_cons_of_mem l hx))]
      have : songsOfLines pl (l :: ls) = s :: songsOfLines pl ls := by
        simp only [songsOfLines, List.filterMap_cons, hr]
      rw [this, List.append_assoc]
      rfl
    | err => exact absurd hr (h l (List.mem_cons_self l ls))

theorem parseLoop_err (pl : String) (bad : String) (suf : List String)
    (hbad : parse_error_line pl bad = .err) :
    ∀ (pre : List String) (acc : List Song),
      (∀ l ∈ pre, parse_error_line pl l ≠ .err) →
      parseLoop pl (pre ++ bad :: suf) acc = acc ++ songsOfLines pl pre := by
  intro pre
  induction pre with
  | nil =>
    intro acc _
    simp only [List.nil_append]
    rw [show parseLoop pl (bad :: suf) acc = acc by simp only [parseLoop, hbad]]
    simp [songsOfLines]
  | cons l pre ih =>
    intro acc h
    cases hr : parse_error_line pl l with
    | skip =>
      rw [show parseLoop pl ((l :: pre) ++ bad :: suf) acc
          = parseLoop pl (pre ++ bad :: suf) acc by
        simp only [List.cons_append, parseLoop, hr]
        rfl]
      rw [ih acc (fun x hx => h x (List.mem_cons_of_mem l hx))]
      have : songsOfLines pl (l :: pre) = songsOfLines pl pre := by
        simp only [songsOfLines, List.filterMap_cons, hr]
      rw [this]
    | song s =>
      rw [show parseLoop pl ((l :: pre) ++ bad :: suf) acc
          = parseLoop pl (pre ++ bad :: suf) (acc ++ [s]) by
        simp only [List.cons_append, parseLoop, hr]
        rfl]
      rw [ih (acc ++ [s]) (fun x hx => h x (List.mem_cons_of_mem l hx))]
      have : songsOfLines pl (l :: pre) = s :: songsOfLines pl pre := by
        simp only [songsOfLines, List.filterMap_cons, hr]
      rw [this, List.append_assoc]
      rfl
    | err => exact absurd hr (h l (List.mem_cons_self l pre))

/-- C7 (amended): an unreadable error-log file yields zero records; a
malformed line makes the parser stop and return exactly the records
accumulated from the lines before it (zero only when no earlier line
produced a record); the exception is always caught, modelled by
parse_errors being a total function. -/
theorem spec_c7_thm :
    (∀ pl, parse_errors none pl = []) ∧
    (∀ pl (pre : List String) (bad : String) (suf : List String),
        (∀ l ∈ pre, parse_error_line pl l ≠ .err) →
        parse_error_line pl bad = .err →
        parse_errors (some (pre ++ bad :: suf)) pl = songsOfLines pl pre) ∧
    (∀ pl (ls : List String),
        (∀ l ∈ ls, parse_error_line pl l ≠ .err) →
        parse_errors (some ls) pl = songsOfLines pl ls) := by
  refine ⟨fun _ => rfl, ?_, ?_⟩
  · intro pl pre bad suf hpre hbad
    show parseLoop pl (pre ++ bad :: suf) [] = _
    rw [parseLoop_err pl bad suf hbad pre [] hpre]
    rfl
  · intro pl ls h
    show parseLoop pl ls [] = _
    rw [parseLoop_no_err pl ls [] h]
    rfl

def c7good : String :=
  "https://open.spotify.com/track/G - LookupError: No results found for song: A - T"

def c7bad : String :=
  "https://open.spotify.com/track/B - LookupError: No results found for song:x"

/-- C7 counterexample: a log file with one well-formed failure line
followed by a malformed one returns one record, not zero, so a malformed
file does not yield an empty record list. -/
theorem spec_c7_counterexample :
    (parse_errors (some [c7good, c7bad]) "PL").length = 1 ∧
    parse_error_line "PL" c7bad = .err := by decide

/-- C7 witness: the amended statement evaluated on an unreadable file and
on the two-line file of the counterexample. -/
theorem spec_c7_witness :
    parse_errors none "PL" = [] ∧
    parse_errors (some [c7good, c7bad]) "PL" = songsOfLines "PL" [c7good] :=
  ⟨spec_c7_thm.1 "PL",
   spec_c7_thm.2.1 "PL" [c7good] c7bad [] (by decide) (by decide)⟩

/- ---------------------------------------------------------------------
   String lemmas used to settle the error-log parser claims (C5, C6).
   --------------------------------------------------------------------- -/

theorem mem_of_head?_eq_some {α : Type} {l : List α} {c : α}
    (h : l.head? = some c) : c ∈ l := by
  cases l with
  | nil => cases h
  | cons a t =>
    cases h
    simp

theorem head?_append_left {α : Type} (a b : List α) (h : a ≠ []) :
    (a ++ b).head? = a.head? := by
  cases a with
  | nil => exact absurd rfl h
  | cons x xs => rfl

theorem getLast?_append_right {α : Type} (a b : List α) (h : b ≠ []) :
    (a ++ b).getLast? = b.getLast? := by
  rw [getLast?_append_or]
  cases hb : b.getLast? with
  | none =>
    rw [List.getLast?_eq_none_iff] at hb
    exact absurd hb h
  | some x => rfl

theorem append_ne_nil_left {α : Type} (x y : List α) (h : x ≠ []) : x ++ y ≠ [] := by
  cases x with
  | nil => exact absurd rfl h
  | cons a t => simp

theorem dropWhile_eq_self_of_all (p : Char → Bool) (l : List Char)
    (h : ∀ c ∈ l, p c = false) : l.dropWhile p = l := by
  cases l with
  | nil => rfl
  | cons c cs =>
    rw [List.dropWhile_cons, if_neg]
    rw [h c (List.mem_cons_self c cs)]
    simp

theorem pyStripL_of_all (l : List Char) (h : ∀ c ∈ l, isPySpaceChar c = false) :
    pyStripL l = l := by
  unfold pyStripL
  rw [dropWhile_eq_self_of_all isPySpaceChar l h]
  rw [dropWhile_eq_self_of_all isPySpaceChar l.reverse
    (fun c hc => h c (List.mem_reverse.mp hc))]
  exact List.reverse_reverse l

theorem pyStripL_eq_self (l : List Char)
    (h1 : ∀ c, l.head? = some c → isPySpaceChar c = false)
    (h2 : ∀ c, l.getLast? = some c → isPySpaceChar c = false) :
    pyStripL l = l := by
  cases l with
  | nil => rfl
  | cons c cs =>
    unfold pyStripL
    have hc : isPySpaceChar c = false := h1 c rfl
    rw [List.dropWhile_cons, if_neg (by rw [hc]; simp)]
    cases hrev : (c :: cs).reverse with
    | nil => exact absurd hrev (by simp)
    | cons d ds =>
      have hd : isPySpaceChar d = false := by
        apply h2 d
        rw [← List.head?_reverse, hrev]
        rfl
      rw [List.dropWhile_cons, if_neg (by rw [hd]; simp)]
      rw [← hrev, List.reverse_reverse]

theorem pyStripL_cons_ws (c : Char) (l : List Char) (h : isPySpaceChar c = true) :
    pyStripL (c :: l) = pyStripL l := by
  unfold pyStripL
  rw [List.dropWhile_cons, if_pos h]

theorem litAt_append_self (sep rest : List Char) : litAt sep (sep ++ rest) = true := by
  induction sep with
  | nil => rfl
  | cons s ss ih =>
    show (s == s && litAt ss (ss ++ rest)) = true
    rw [ih, beq_self_eq_true]
    rfl

theorem litAt_extend (p : List Char) : ∀ u v, litAt p u = true → litAt p (u ++ v) = true := by
  induction p with
  | nil => intro u v _; rfl
  | cons x xs ih =>
    intro u v h
    cases u with
    | nil => cases h
    | cons c cs =>
      show (x == c && litAt xs (cs ++ v)) = true
      have h2 : (x == c && litAt xs cs) = true := h
      rw [Bool.and_eq_true] at h2
      rw [h2.1, ih cs v h2.2]
      rfl

theorem splitFirst_self (sep b : List Char) (hsep : sep ≠ []) :
    splitFirst sep (sep ++ b) = some ([], b) := by
  cases sep with
  | nil => exact absurd rfl hsep
  | cons s ss =>
    have hl : litAt (s :: ss) (s :: (ss ++ b)) = true := by
      rw [← List.cons_append]
      exact litAt_append_self (s :: ss) b
    show (if litAt (s :: ss) (s :: (ss ++ b)) then
        some (([] : List Char), (s :: (ss ++ b)).drop (s :: ss).length)
      else ((splitFirst (s :: ss) (ss ++ b)).map (fun p => (s :: p.1, p.2)))) = some ([], b)
    rw [if_pos hl]
    show some ([], (ss ++ b).drop ss.length) = some ([], b)
    rw [List.drop_left]

theorem splitFirst_ws_sep (sep ss : List Char) (hs : sep = ' ' :: ss) :
    ∀ a b, (∀ c ∈ a, isPySpaceChar c = false) →
      splitFirst sep (a ++ (sep ++ b)) = some (a, b) := by
  intro a
  induction a with
  | nil =>
    intro b _
    simp only [List.nil_append]
    exact splitFirst_self sep b (by rw [hs]; simp)
  | cons c cs ih =>
    intro b h
    have hcne : (' ' == c) = false := by
      rw [beq_eq_false_iff_ne]
      intro e
      have := h c (List.mem_cons_self c cs)
      rw [← e] at this
      exact absurd this (by decide)
    have hlit : litAt sep (c :: (cs ++ (sep ++ b))) = false := by
      rw [hs]
      show (' ' == c && litAt ss (cs ++ ((' ' :: ss) ++ b))) = false
      rw [hcne, Bool.false_and]
    show splitFirst sep ((c :: cs) ++ (sep ++ b)) = some (c :: cs, b)
    rw [List.cons_append]
    show (if litAt sep (c :: (cs ++ (sep ++ b))) then
        some ([], (c :: (cs ++ (sep ++ b))).drop sep.length)
      else ((splitFirst sep (cs ++ (sep ++ b))).map (fun p => (c :: p.1, p.2)))) = _
    rw [if_neg (by rw [hlit]; simp)]
    rw [ih b (fun x hx => h x (List.mem_cons_of_mem c hx))]
    rfl

theorem splitFirst_dash_sep :
    ∀ a b, (∀ c ∈ a, c ≠ '-') →
      splitFirst dashSep (a ++ (dashSep ++ b)) = some (a, b) := by
  intro a
  induction a with
  | nil =>
    intro b _
    simp only [List.nil_append]
    exact splitFirst_self dashSep b (by decide)
  | cons c cs ih =>
    intro b h
    have hlit : litAt dashSep (c :: (cs ++ (dashSep ++ b))) = false := by
      cases cs with
      | nil =>
        show (' ' == c && litAt ['-', ' '] (([] : List Char) ++ (dashSep ++ b))) = false
        have hin : litAt ['-', ' '] (dashSep ++ b) = false := by
          show ('-' == ' ' && litAt [' '] ('-' :: ' ' :: b)) = false
          rw [show ('-' == ' ') = false by decide, Bool.false_and]
        rw [List.nil_append, hin, Bool.and_false]
      | cons c2 cs2 =>
        have hc2 : ('-' == c2) = false := by
          rw [beq_eq_false_iff_ne]
          intro e
          exact (h c2 (List.mem_cons_of_mem c (List.mem_cons_self c2 cs2))) e.symm
        show (' ' == c && ('-' == c2 && litAt [' '] (cs2 ++ (dashSep ++ b)))) = false
        rw [hc2, Bool.false_and, Bool.and_false]
    show splitFirst dashSep ((c :: cs) ++ (dashSep ++ b)) = some (c :: cs, b)
    rw [List.cons_append]
    show (if litAt dashSep (c :: (cs ++ (dashSep ++ b))) then
        some (([] : List Char), (c :: (cs ++ (dashSep ++ b))).drop dashSep.length)
      else ((splitFirst dashSep (cs ++ (dashSep ++ b))).map (fun p => (c :: p.1, p.2)))) = _
    rw [if_neg (by rw [hlit]; simp)]
    rw [ih b (fun x hx => h x (List.mem_cons_of_mem c hx))]
    rfl

theorem splitFirst_dash_none :
    ∀ l, (∀ c ∈ l, c ≠ '-') → splitFirst dashSep l = none := by
  intro l
  induction l with
  | nil => intro _; rfl
  | cons c cs ih =>
    intro h
    have hlit : litAt dashSep (c :: cs) = false := by
      cases cs with
      | nil =>
        show (' ' == c && litAt ['-', ' '] ([] : List Char)) = false
        rw [show litAt ['-', ' '] ([] : List Char) = false from rfl, Bool.and_false]
      | cons c2 cs2 =>
        have hc2 : ('-' == c2) = false := by
          rw [beq_eq_false_iff_ne]
          intro e
          exact (h c2 (List.mem_cons_of_mem c (List.mem_cons_self c2 cs2))) e.symm
        show (' ' == c && ('-' == c2 && litAt [' '] cs2)) = false
        rw [hc2, Bool.false_and, Bool.and_false]
    show (if litAt dashSep (c :: cs) then
        some (([] : List Char), (c :: cs).drop dashSep.length)
      else ((splitFirst dashSep cs).map (fun p => (c :: p.1, p.2)))) = none
    rw [if_neg (by rw [hlit]; simp)]
    rw [ih (fun x hx => h x (List.mem_cons_of_mem c hx))]
    rfl

theorem splitAll_dash_single (l : List Char) (h : ∀ c ∈ l, c ≠ '-') :
    splitAll dashSep l = [l] :=
  splitAll_of_none dashSep l (by decide) (splitFirst_dash_none l h)

theorem splitAll_comma_cons (c : Char) (s : List Char) (hc : c ≠ ',') :
    ∃ h t, splitAll [','] s = h :: t ∧ splitAll [','] (c :: s) = (c :: h) :: t := by
  have hb : (',' == c) = false := by
    rw [beq_eq_false_iff_ne]
    intro e
    exact hc e.symm
  have hlit : litAt [','] (c :: s) = false := by
    show (',' == c && litAt ([] : List Char) s) = false
    rw [hb, Bool.false_and]
  have hsf : splitFirst [','] (c :: s)
      = (splitFirst [','] s).map (fun p => (c :: p.1, p.2)) := by
    show (if litAt [','] (c :: s) then
        some (([] : List Char), (c :: s).drop [','].length)
      else ((splitFirst [','] s).map (fun p => (c :: p.1, p.2)))) = _
    rw [if_neg (by rw [hlit]; simp)]
  cases hsp : splitFirst [','] s with
  | none =>
    have h1 := splitAll_of_none [','] s (by decide) hsp
    have h2 := splitAll_of_none [','] (c :: s) (by decide) (by rw [hsf, hsp]; rfl)
    exact ⟨s, [], h1, by rw [h2]⟩
  | some p =>
    obtain ⟨a, b⟩ := p
    have h1 := splitAll_of_some [','] s a b (by decide) hsp
    have h2 := splitAll_of_some [','] (c :: s) (c :: a) b (by decide)
      (by rw [hsf, hsp]; rfl)
    exact ⟨a, splitAll [','] b, h1, by rw [h2]⟩

theorem artists_strip_eq (s : List Char) :
    (splitAll [','] (' ' :: s)).map (fun a => String.mk (pyStripL a))
      = (splitAll [','] s).map (fun a => String.mk (pyStripL a)) := by
  obtain ⟨h, t, e1, e2⟩ := splitAll_comma_cons ' ' s (by decide)
  rw [e1, e2]
  simp only [List.map_cons]
  rw [pyStripL_cons_ws ' ' h (by decide)]

-- Bool-valued guard: the last character, if any, is not whitespace.
def lastNotWs (l : List Char) : Bool :=
  match l.getLast? with
  | some c => !(isPySpaceChar c)
  | none => true

/-- C5 (amended): a lookup-not-found log line parses to the comma-split,
whitespace-trimmed artist list taken before the first separator after the
marker, and to the title taken from the segment between the first and the
second separator after the marker (the remainder after the first
separator up to the next one, not after the last separator); the quoted
example line, having a single separator, parses to artists
[Artist One, Artist Two] and title Song Title. -/
theorem spec_c5_thm (pl : String) (url artistsStr titleStr : List Char)
    (h1 : litAt trackPfx url = true)
    (h2 : ∀ c ∈ url, isPySpaceChar c = false)
    (h3 : ∀ c ∈ artistsStr, c ≠ '-')
    (h4 : ∀ c ∈ titleStr, c ≠ '-')
    (h5 : titleStr ≠ [])
    (h6 : lastNotWs titleStr = true) :
    parse_errors
      (some [String.mk (url ++ (lkMarker ++ ((' ' :: artistsStr) ++ (dashSep ++ titleStr))))]) pl
      = [{ title := String.mk (pyStripL titleStr),
           artists := (splitAll [','] artistsStr).map (fun a => String.mk (pyStripL a)),
           song_url := String.mk url, playlist_url := pl,
           error := "LookupError: No results found",
           playlist := { playlist_url := pl }, list_position := "" }] := by
  have hurl_ne : url ≠ [] := by
    intro he
    rw [he] at h1
    exact absurd h1 (by decide)
  have hlitM : litAt trackPfx
      (url ++ (lkMarker ++ ((' ' :: artistsStr) ++ (dashSep ++ titleStr)))) = true :=
    litAt_extend trackPfx url _ h1
  have hM_ne : url ++ (lkMarker ++ ((' ' :: artistsStr) ++ (dashSep ++ titleStr))) ≠ [] :=
    append_ne_nil_left url _ hurl_ne
  have hsplit : splitFirst lkMarker
      (url ++ (lkMarker ++ ((' ' :: artistsStr) ++ (dashSep ++ titleStr))))
      = some (url, (' ' :: artistsStr) ++ (dashSep ++ titleStr)) :=
    splitFirst_ws_sep lkMarker ("- LookupError: No results found for song:".data) rfl
      url _ h2
  have hhead : ∀ c,
      (url ++ (lkMarker ++ ((' ' :: artistsStr) ++ (dashSep ++ titleStr)))).head? = some c →
      isPySpaceChar c = false := by
    intro c hc
    rw [head?_append_left url _ hurl_ne] at hc
    exact h2 c (mem_of_head?_eq_some hc)
  have hlast : ∀ c,
      (url ++ (lkMarker ++ ((' ' :: artistsStr) ++ (dashSep ++ titleStr)))).getLast? = some c →
      isPySpaceChar c = false := by
    intro c hc
    rw [getLast?_append_right url _ (append_ne_nil_left lkMarker _ (by decide))] at hc
    rw [getLast?_append_right lkMarker _ (append_ne_nil_left (' ' :: artistsStr) _ (by simp))] at hc
    rw [getLast?_append_right (' ' :: artistsStr) _ (append_ne_nil_left dashSep _ (by decide))] at hc
    rw [getLast?_append_right dashSep _ h5] at hc
    unfold lastNotWs at h6
    rw [hc] at h6
    have h6b : (!(isPySpaceChar c)) = true := h6
    cases hb : isPySpaceChar c with
    | true => rw [hb] at h6b; exact absurd h6b (by decide)
    | false => rfl
  have hstrip : pyStripL (url ++ (lkMarker ++ ((' ' :: artistsStr) ++ (dashSep ++ titleStr))))
      = url ++ (lkMarker ++ ((' ' :: artistsStr) ++ (dashSep ++ titleStr))) :=
    pyStripL_eq_self _ hhead hlast
  have hnd : ∀ c ∈ (' ' :: artistsStr), c ≠ '-' := by
    intro c hc
    cases List.mem_cons.mp hc with
    | inl e => rw [e]; decide
    | inr m => exact h3 c m
  have hsegs : splitAll dashSep ((' ' :: artistsStr) ++ (dashSep ++ titleStr))
      = (' ' :: artistsStr) :: [titleStr] := by
    rw [splitAll_of_some dashSep _ (' ' :: artistsStr) titleStr (by decide)
      (splitFirst_dash_sep (' ' :: artistsStr) titleStr hnd)]
    rw [splitAll_dash_single titleStr h4]
  have hline : parse_error_line pl
      (String.mk (url ++ (lkMarker ++ ((' ' :: artistsStr) ++ (dashSep ++ titleStr)))))
      = .song { title := String.mk (pyStripL titleStr),
                artists := (splitAll [','] artistsStr).map (fun a => String.mk (pyStripL a)),
                song_url := String.mk url, playlist_url := pl,
                error := "LookupError: No results found",
                playlist := { playlist_url := pl }, list_position := "" } := by
    show parse_stripped pl
      (pyStripL (url ++ (lkMarker ++ ((' ' :: artistsStr) ++ (dashSep ++ titleStr))))) = _
    rw [hstrip]
    unfold parse_stripped
    rw [if_neg hM_ne]
    rw [hlitM]
    rw [if_neg (by decide)]
    have hcont : containsSub
        (url ++ (lkMarker ++ ((' ' :: artistsStr) ++ (dashSep ++ titleStr)))) lkMarker = true := by
      rw [containsSub, hsplit]
      rfl
    rw [hcont, if_pos rfl]
    simp only [hsplit, hsegs]
    rw [pyStripL_of_all url h2, artists_strip_eq artistsStr]
  show parseLoop pl
    [String.mk (url ++ (lkMarker ++ ((' ' :: artistsStr) ++ (dashSep ++ titleStr))))] [] = _
  simp only [parseLoop, hline, List.nil_append]

/-- C5 counterexample: on a line whose post-marker text holds two
separators, A - B - C, the parser takes the segment between the first and
second separators as title (B), not the remainder after the last
separator before end of line (C), refuting the stated extraction rule. -/
theorem spec_c5_counterexample :
    (parse_errors
        (some ["https://open.spotify.com/track/X - LookupError: No results found for song: A - B - C"])
        "PL").map Song.title = ["B"] ∧
    (parse_errors
        (some ["https://open.spotify.com/track/X - LookupError: No results found for song: A - B - C"])
        "PL").map Song.artists = [["A"]] ∧
    splitAll dashSep " A - B - C".data = [" A".data, "B".data, "C".data] ∧
    ("B" : String) ≠ "C" := by decide

/-- C5 witness: the amended statement evaluated on the quoted example
line, which has a single post-marker separator. -/
theorem spec_c5_witness :
    parse_errors
      (some ["https://open.spotify.com/track/ABC - LookupError: No results found for song: Artist One, Artist Two - Song Title"])
      "PL"
      = [{ title := "Song Title", artists := ["Artist One", "Artist Two"],
           song_url := "https://open.spotify.com/track/ABC", playlist_url := "PL",
           error := "LookupError: No results found",
           playlist := { playlist_url := "PL" }, list_position := "" }] := by
  have h := spec_c5_thm "PL" ("https://open.spotify.com/track/ABC".data)
    ("Artist One, Artist Two".data) ("Song Title".data)
    (by decide) (by decide) (by decide) (by decide) (by decide) (by decide)
  have heq : String.mk ("https://open.spotify.com/track/ABC".data ++
      (lkMarker ++ ((' ' :: "Artist One, Artist Two".data) ++ (dashSep ++ "Song Title".data))))
      = "https://open.spotify.com/track/ABC - LookupError: No results found for song: Artist One, Artist Two - Song Title" := by
    decide
  rw [← heq]
  exact h.trans (by decide)

/-- C6 (amended): a download-backend-failure line emits a record whose
category is the constant backend-error tag and whose url field is the
track URL before the marker; the trailing fallback source URL after the
marker is discarded entirely (the emitted record is independent of it),
and no title or artist field is populated. -/
theorem spec_c6_thm (pl : String) (url fb : List Char)
    (h1 : litAt trackPfx url = true)
    (h2 : ∀ c ∈ url, isPySpaceChar c = false)
    (h3 : fb ≠ [])
    (h4 : ∀ c ∈ fb, isPySpaceChar c = false)
    (h5 : containsSub (url ++ (apMarker ++ fb)) lkMarker = false)
    (h6 : containsSub (url ++ (apMarker ++ fb)) keMarker = false) :
    parse_errors (some [String.mk (url ++ (apMarker ++ fb))]) pl
      = [{ title := "", artists := [], song_url := String.mk url, playlist_url := pl,
           error := "AudioProviderError: YT-DLP download error",
           playlist := { playlist_url := pl }, list_position := "" }] := by
  have hurl_ne : url ≠ [] := by
    intro he
    rw [he] at h1
    exact absurd h1 (by decide)
  have hlitM : litAt trackPfx (url ++ (apMarker ++ fb)) = true :=
    litAt_extend trackPfx url _ h1
  have hM_ne : url ++ (apMarker ++ fb) ≠ [] := append_ne_nil_left url _ hurl_ne
  have hsplit : splitFirst apMarker (url ++ (apMarker ++ fb)) = some (url, fb) :=
    splitFirst_ws_sep apMarker ("- AudioProviderError: YT-DLP download error - ".data) rfl
      url fb h2
  have hhead : ∀ c, (url ++ (apMarker ++ fb)).head? = some c → isPySpaceChar c = false := by
    intro c hc
    rw [head?_append_left url _ hurl_ne] at hc
    exact h2 c (mem_of_head?_eq_some hc)
  have hlast : ∀ c, (url ++ (apMarker ++ fb)).getLast? = some c → isPySpaceChar c = false := by
    intro c hc
    rw [getLast?_append_right url _ (append_ne_nil_left apMarker _ (by decide))] at hc
    rw [getLast?_append_right apMarker _ h3] at hc
    exact h4 c (mem_of_getLast?_eq_some hc)
  have hstrip : pyStripL (url ++ (apMarker ++ fb)) = url ++ (apMarker ++ fb) :=
    pyStripL_eq_self _ hhead hlast
  have hline : parse_error_line pl (String.mk (url ++ (apMarker ++ fb)))
      = .song { title := "", artists := [], song_url := String.mk url, playlist_url := pl,
                error := "AudioProviderError: YT-DLP download error",
                playlist := { playlist_url := pl }, list_position := "" } := by
    show parse_stripped pl (pyStripL (url ++ (apMarker ++ fb))) = _
    rw [hstrip]
    unfold parse_stripped
    rw [if_neg hM_ne]
    rw [hlitM]
    rw [if_neg (by decide)]
    rw [h5]
    rw [if_neg (by decide)]
    rw [h6]
    rw [if_neg (by decide)]
    have hcont : containsSub (url ++ (apMarker ++ fb)) apMarker = true := by
      rw [containsSub, hsplit]
      rfl
    rw [hcont, if_pos rfl]
    simp only [hsplit]
    rw [pyStripL_of_all url h2]
  show parseLoop pl [String.mk (url ++ (apMarker ++ fb))] [] = _
  simp only [parseLoop, hline, List.nil_append]

def c6line : String :=
  "https://open.spotify.com/track/0PB - AudioProviderError: YT-DLP download error - https://music.youtube.com/watch?v=ceX"

/-- C6 counterexample: on the documented backend-failure line the emitted
record does not capture the fallback URL anywhere: the record equals a
constant-detail record, its detail field is the bare backend-error tag
with no occurrence of the fallback URL, and the record stays the same
when the fallback URL is replaced by a different one. -/
theorem spec_c6_counterexample :
    parse_errors (some [c6line]) "PL"
      = [{ title := "", artists := [], song_url := "https://open.spotify.com/track/0PB",
           playlist_url := "PL", error := "AudioProviderError: YT-DLP download error",
           playlist := { playlist_url := "PL" }, list_position := "" }] ∧
    (parse_errors (some [c6line]) "PL").map Song.error
      = ["AudioProviderError: YT-DLP download error"] ∧
    containsSub ("AudioProviderError: YT-DLP download error".data)
      ("https://music.youtube.com".data) = false ∧
    parse_errors (some [c6line]) "PL"
      = parse_errors
          (some ["https://open.spotify.com/track/0PB - AudioProviderError: YT-DLP download error - https://other.example/xyz"])
          "PL" := by decide

/-- C6 witness: the amended statement evaluated on the documented line. -/
theorem spec_c6_witness :
    parse_errors (some [c6line]) "PL"
      = [{ title := "", artists := [], song_url := "https://open.spotify.com/track/0PB",
           playlist_url := "PL", error := "AudioProviderError: YT-DLP download error",
           playlist := { playlist_url := "PL" }, list_position := "" }] := by
  have h := spec_c6_thm "PL" ("https://open.spotify.com/track/0PB".data)
    ("https://music.youtube.com/watch?v=ceX".data)
    (by decide) (by decide) (by decide) (by decide) (by decide) (by decide)
  have heq : String.mk ("https://open.spotify.com/track/0PB".data ++
      (apMarker ++ "https://music.youtube.com/watch?v=ceX".data)) = c6line := by decide
  rw [← heq]
  exact h.trans (by decide)
